import Mathlib

/-!
Shallow embedding of the TeraBox relay bot (`src/main.py`, class `TeraBoxBot`)
and proofs about its core pipeline: link validation, size/time formatting,
the GridFS-style store/retrieve pair, the chunked download loop with progress
reports, the upload/cleanup step, and metadata extraction.

Python floats are modelled by exact rationals (ℚ); `bytes` values by
`List Nat`; the MongoDB collections by in-memory lists of documents; the
Telegram/network side effects by explicit environments recording which calls
fail, together with event traces.
-/

namespace Terany

/-! ## Configuration constants (src/main.py lines 33-35) -/

/-- `MAX_FILE_SIZE = 2 * 1024 * 1024 * 1024` (2 GiB limit). -/
def MAX_FILE_SIZE : Nat := 2 * 1024 * 1024 * 1024

/-- `CHUNK_SIZE = 1024 * 1024` (1 MiB download chunks). -/
def CHUNK_SIZE : Nat := 1024 * 1024

/-! ## Generic list helpers used by the embedding -/

/-- `startsWithChars needle hay` : `needle` is a prefix of `hay`
(character-by-character). -/
def startsWithChars : List Char → List Char → Bool
  | [], _ => true
  | _ :: _, [] => false
  | a :: as, b :: bs => a = b && startsWithChars as bs

/-- `containsChars needle hay` : `needle` occurs contiguously inside `hay`;
this is Python's `needle in hay` on strings. -/
def containsChars (needle : List Char) : List Char → Bool
  | [] => startsWithChars needle []
  | c :: t => startsWithChars needle (c :: t) || containsChars needle t

/-! ## Link validator (src/main.py lines 280-287, `is_valid_terabox_url`)

`urlparse` is modelled by its netloc extraction: strip a syntactically valid
`scheme:` prefix, then, if the remainder starts with `//`, the netloc is
everything up to the next `/`, `?` or `#` (CPython `urllib.parse.urlsplit`);
otherwise the netloc is empty.  CPython raises
`ValueError("Invalid IPv6 URL")` when the extracted netloc contains `[`
without `]` or vice versa; that parse failure is modelled as `none` and is
what the source's bare `except` turns into `False`. -/

/-- Characters CPython allows inside a URL scheme. -/
def schemeChar (c : Char) : Bool :=
  c.isAlphanum || c = '+' || c = '-' || c = '.'

/-- Drop a valid `scheme:` prefix, as CPython `urlsplit` does. -/
def afterScheme (l : List Char) : List Char :=
  let pre := l.takeWhile (fun c => c ≠ ':')
  if pre.length < l.length ∧ pre ≠ [] ∧
      (pre.headD ' ').isAlpha = true ∧ pre.all schemeChar = true then
    l.drop (pre.length + 1)
  else l

/-- The netloc (host[:port]) component of a URL, as CPython `urlsplit`
computes it: `none` models the `ValueError("Invalid IPv6 URL")` raised on a
netloc with unbalanced square brackets. -/
def netlocOf (l : List Char) : Option (List Char) :=
  match afterScheme l with
  | '/' :: '/' :: rest =>
      let netloc := rest.takeWhile (fun c => c ≠ '/' && c ≠ '?' && c ≠ '#')
      if (netloc.contains '[' && !(netloc.contains ']')) ||
          (netloc.contains ']' && !(netloc.contains '[')) then none
      else some netloc
  | _ => some []

/-- `valid_domains` from `is_valid_terabox_url`. -/
def valid_domains : List String := ["terabox.com", "1024terabox.com", "teraboxapp.com"]

/-- `is_valid_terabox_url` (src/main.py lines 280-287): parse the URL, then
test `any(domain in parsed.netloc.lower() for domain in valid_domains)` —
a substring test against the lowercased netloc.  When `urlparse` raises
(`netlocOf` is `none`), the bare `except` at lines 286-287 returns False. -/
def is_valid_terabox_url (url : String) : Bool :=
  match netlocOf url.data with
  | none => false
  | some netloc =>
      let host := netloc.map Char.toLower
      valid_domains.any (fun d => containsChars d.data host)

/-! ## Size formatter (src/main.py lines 270-278, `format_file_size`)

`int(math.floor(math.log(size_bytes, 1024)))` is modelled by the exact
base-1024 floor logarithm, `round(size_bytes / p, 2)` by exact
round-half-to-even to hundredths, and the f-string rendering of the resulting
Python float by `renderHundredths`.  Indexing `size_names[i]` out of range
(files of 1 TiB and above) raises `IndexError` in Python; the model returns
`none` there. -/

/-- Fuel-driven base-1024 floor logarithm (structural, so the kernel can
evaluate it). -/
def log1024Aux : Nat → Nat → Nat
  | 0, _ => 0
  | fuel + 1, n => if n < 1024 then 0 else log1024Aux fuel (n / 1024) + 1

/-- `int(math.floor(math.log(n, 1024)))` for `n ≥ 1`. -/
def floorLog1024 (n : Nat) : Nat := log1024Aux n n

/-- Python 3 `round(num/den, 2)` as exact round-half-to-even of
`100*num/den` (the float argument is modelled exactly). -/
def roundHundredths (num den : Nat) : Nat :=
  let q := 100 * num / den
  let r := 100 * num % den
  if 2 * r < den then q
  else if den < 2 * r then q + 1
  else if q % 2 = 0 then q else q + 1

/-- Render a number of hundredths the way Python prints the float
`round(x, 2)`: at least one fractional digit, trailing zeros dropped. -/
def renderHundredths (h : Nat) : String :=
  let ip := Nat.repr (h / 100)
  let fr := h % 100
  if fr = 0 then ip ++ ".0"
  else if fr % 10 = 0 then ip ++ "." ++ Nat.repr (fr / 10)
  else if fr < 10 then ip ++ ".0" ++ Nat.repr fr
  else ip ++ "." ++ Nat.repr fr

/-- `size_names` from `format_file_size`. -/
def size_names : List String := ["B", "KB", "MB", "GB"]

/-- `format_file_size` (src/main.py lines 270-278).  Returns `none` when
`size_names[i]` would raise `IndexError`. -/
def format_file_size (size_bytes : Nat) : Option String :=
  if size_bytes = 0 then some "0B"
  else
    let i := floorLog1024 size_bytes
    let p := 1024 ^ i
    let s := roundHundredths size_bytes p
    match size_names[i]? with
    | none => none
    | some name => some (renderHundredths s ++ " " ++ name)

/-! ## Time formatter (src/main.py lines 454-461, `format_time`) -/

/-- Python `int(x)` on a float: truncation toward zero, on the exact
rational model. -/
def pyInt (q : ℚ) : Int := Int.tdiv q.num q.den

/-- Python float floor division `a // b`. -/
def pyFloorDiv (a b : ℚ) : Int := Int.fdiv (a / b).num (a / b).den

/-- Python float modulo `a % b` (result carries the divisor's sign):
`a - b * (a // b)`. -/
def pyFMod (a b : ℚ) : ℚ := a - b * ((pyFloorDiv a b : Int) : ℚ)

/-- `format_time` (src/main.py lines 454-461). -/
def format_time (seconds : ℚ) : String :=
  if seconds < 60 then Int.repr (pyInt seconds) ++ "s"
  else if seconds < 3600 then
    Int.repr (pyFloorDiv seconds 60) ++ "m " ++
      Int.repr (pyInt (pyFMod seconds 60)) ++ "s"
  else
    Int.repr (pyFloorDiv seconds 3600) ++ "h " ++
      Int.repr (pyFloorDiv (pyFMod seconds 3600) 60) ++ "m"

/-! ## MongoDB GridFS staging (src/main.py lines 306-367)

The two collections `fs.files` and `fs.chunks` are lists of documents; the
driver's generated `_id` values are modelled by a fresh-id counter.  The
database itself is assumed not to fail (the `except` branches of the source
catch driver errors only), so `store_file_mongodb` always succeeds in the
model. -/

/-- A document of the `fs.files` collection, as built at src/main.py
lines 313-319. -/
structure FileDoc where
  fid : Nat
  filename : String
  length : Nat
  chunkSize : Nat
deriving DecidableEq

/-- A document of the `fs.chunks` collection, as built at src/main.py
lines 331-335. -/
structure ChunkDoc where
  files_id : Nat
  n : Nat
  data : List Nat
deriving DecidableEq

/-- The MongoDB state: both collections plus the fresh-`_id` counter. -/
structure DbState where
  files : List FileDoc
  chunks : List ChunkDoc
  nextId : Nat
deriving DecidableEq

/-- `chunk_size = 261120` (GridFS default, src/main.py line 326). -/
def gridfsChunkSize : Nat := 261120

/-- Fuel-driven slicing of `file_data` into `c`-sized pieces: the loop
`for i in range(0, len(file_data), chunk_size)` at src/main.py line 329.
The fuel is the list length, which is enough for any `c > 0`. -/
def chunksOfAux (c : Nat) : Nat → List α → List (List α)
  | _, [] => []
  | 0, _ :: _ => []
  | fuel + 1, l => l.take c :: chunksOfAux c fuel (l.drop c)

/-- The `c`-sized slices of `l`, in order (`c > 0` is required by the
caller, as in the Python `range` step). -/
def chunksOf (c : Nat) (l : List α) : List (List α) :=
  chunksOfAux c l.length l

/-- `store_file_mongodb` (src/main.py lines 306-343): insert the file
document, then one chunk document per `261120`-byte slice, numbered from 0.
Returns the generated file id and the new database state. -/
def store_file_mongodb (db : DbState) (file_data : List Nat) (filename : String) :
    Nat × DbState :=
  let file_id := db.nextId
  let file_doc : FileDoc := ⟨file_id, filename, file_data.length, gridfsChunkSize⟩
  let chunk_docs := (chunksOf gridfsChunkSize file_data).enum.map
    (fun p => ChunkDoc.mk file_id p.1 p.2)
  (file_id, ⟨db.files ++ [file_doc], db.chunks ++ chunk_docs, db.nextId + 1⟩)

/-- Insertion into a list of chunk documents kept ordered by `n`. -/
def insertByN (c : ChunkDoc) : List ChunkDoc → List ChunkDoc
  | [] => [c]
  | d :: t => if c.n ≤ d.n then c :: d :: t else d :: insertByN c t

/-- `find(...).sort('n', 1)`: sort the matching chunk documents by their
`n` field (insertion sort). -/
def sortByN : List ChunkDoc → List ChunkDoc
  | [] => []
  | c :: t => insertByN c (sortByN t)

/-- `retrieve_file_mongodb` (src/main.py lines 345-367): look up the file
document by `_id`, fetch its chunks sorted by `n`, and concatenate their
`data` fields.  `none` models the `if not file_doc: return None` branch. -/
def retrieve_file_mongodb (db : DbState) (file_id : Nat) :
    Option (List Nat × String) :=
  match db.files.find? (fun f => f.fid = file_id) with
  | none => none
  | some file_doc =>
      let cs := sortByN (db.chunks.filter (fun c => c.files_id = file_id))
      some (cs.foldl (fun acc c => acc ++ c.data) [], file_doc.filename)

/-! ## Download relay (src/main.py lines 369-452, `download_to_mongodb`)

The network and Telegram side of the function is an explicit environment:
the HTTP status and `content-length` header of the streaming GET, the byte
chunks `iter_chunked` delivers, the values returned by `time.time()`, and
which Telegram message calls raise.  The function body is replayed exactly;
every externally visible step is recorded in an event trace. -/

/-- One externally visible step of `download_to_mongodb`. -/
inductive DlEvent where
  /-- `session.get(url)` was issued (line 374). -/
  | getIssued
  /-- one chunk of the body was read by `iter_chunked` (line 400). -/
  | chunkRead (idx len : Nat)
  /-- the "File too large" reply was sent (line 381). -/
  | tooLargeReply
  /-- the initial progress message was sent (line 388). -/
  | progressMsgSent
  /-- an in-loop progress `edit_message_text` was attempted (line 422). -/
  | progressEditTried (idx : Nat)
  /-- the "Storing in cloud database..." edit was attempted (line 434). -/
  | storingEditTried
  /-- `store_file_mongodb` ran (line 441). -/
  | storedToDb
  /-- the progress message was deleted (line 443). -/
  | progressMsgDeleted
deriving DecidableEq

/-- The data carried by one in-loop progress report (lines 404-431). -/
structure Report where
  downloaded : Nat
  percent : ℚ
  speed : ℚ
  eta : ℚ
  etaText : String
  delivered : Bool
deriving DecidableEq

/-- The external behaviour `download_to_mongodb` is run against. -/
structure NetEnv where
  /-- HTTP status of the streaming GET. -/
  status : Nat
  /-- `int(response.headers.get('content-length', 0))`; 0 when absent. -/
  contentLength : Nat
  /-- the chunks `iter_chunked(CHUNK_SIZE)` delivers, in order. -/
  chunks : List (List Nat)
  /-- `time.time()` at `last_update_time = time.time()` (line 395). -/
  tLastUpd0 : ℚ
  /-- `time.time()` at `start_time = time.time()` (line 397). -/
  tStart : ℚ
  /-- `time.time()` inside iteration `i` of the loop (line 406). -/
  tAt : Nat → ℚ
  /-- the "too large" `reply_text` raises (line 381). -/
  tooLargeReplyFails : Bool
  /-- the initial progress `reply_text` raises (line 388). -/
  progressReplyFails : Bool
  /-- the in-loop `edit_message_text` raises at iteration `i` (line 422). -/
  editFailsAt : Nat → Bool
  /-- the "Storing in cloud database..." edit raises (line 434). -/
  storingEditFails : Bool
  /-- `delete_message` raises (line 443). -/
  deleteFails : Bool

/-- Loop state of the `async for chunk in response.content.iter_chunked`
loop (lines 394-431). -/
structure LoopState where
  downloaded : Nat
  last_update_time : ℚ
  last_update_percent : ℚ
  file_data : List Nat
  reports : List Report
  events : List DlEvent

/-- One iteration of the download loop (lines 400-431), on chunk index
`p.1` with body `p.2`. -/
def dlStep (total_size : Nat) (start_time : ℚ) (e : NetEnv)
    (st : LoopState) (p : Nat × List Nat) : LoopState :=
  let i := p.1
  let chunk := p.2
  let file_data := st.file_data ++ chunk
  let downloaded := st.downloaded + chunk.length
  let events := st.events ++ [DlEvent.chunkRead i chunk.length]
  if 0 < total_size then
    let percent : ℚ := (downloaded : ℚ) / (total_size : ℚ) * 100
    let current_time := e.tAt i
    if 5 ≤ percent - st.last_update_percent ∨
        10 ≤ current_time - st.last_update_time then
      let elapsed_time := current_time - start_time
      let speed : ℚ := if 0 < elapsed_time then (downloaded : ℚ) / elapsed_time else 0
      let eta : ℚ :=
        if 0 < speed then ((total_size : ℚ) - (downloaded : ℚ)) / speed else 0
      let rep : Report := ⟨downloaded, percent, speed, eta, format_time eta,
        !(e.editFailsAt i)⟩
      let events := events ++ [DlEvent.progressEditTried i]
      if e.editFailsAt i then
        -- the edit raised: logged and ignored; the last-report markers keep
        -- their old values (lines 428-431)
        ⟨downloaded, st.last_update_time, st.last_update_percent, file_data,
          st.reports ++ [rep], events⟩
      else
        ⟨downloaded, current_time, percent, file_data,
          st.reports ++ [rep], events⟩
    else
      ⟨downloaded, st.last_update_time, st.last_update_percent, file_data,
        st.reports, events⟩
  else
    ⟨downloaded, st.last_update_time, st.last_update_percent, file_data,
      st.reports, events⟩

/-- How `download_to_mongodb` returned. -/
inductive DlResult where
  /-- `return None` — the bare-`None` "file too large" exit (line 386). -/
  | noneOnly
  /-- `return None, 0` — an exception reached the `except` (line 452). -/
  | exceptPair
  /-- `return file_id, len(file_data)` (line 448). -/
  | ok (file_id : Nat) (size : Nat)
deriving DecidableEq

/-- Everything observable about one run of `download_to_mongodb`. -/
structure DlRun where
  result : DlResult
  events : List DlEvent
  reports : List Report
  /-- the `downloaded` counter when the function left the loop (0 if the
  loop was never entered). -/
  bytes_transferred : Nat
  /-- the `file_data` buffer when the function left the loop. -/
  file_data : List Nat
  /-- the database state when the function returned. -/
  db : DbState

/-- `download_to_mongodb` (src/main.py lines 369-452) replayed against an
environment.  Any raise inside the `try` lands in the `except` that returns
`(None, 0)`. -/
def download_to_mongodb (db : DbState) (e : NetEnv) (filename : String) : DlRun :=
  let events := [DlEvent.getIssued]
  if e.status ≠ 200 then
    -- raise Exception(f"HTTP {response.status}") → except → (None, 0)
    ⟨.exceptPair, events, [], 0, [], db⟩
  else
    let total_size := e.contentLength
    if MAX_FILE_SIZE < total_size then
      if e.tooLargeReplyFails then ⟨.exceptPair, events, [], 0, [], db⟩
      else ⟨.noneOnly, events ++ [DlEvent.tooLargeReply], [], 0, [], db⟩
    else if e.progressReplyFails then ⟨.exceptPair, events, [], 0, [], db⟩
    else
      let events := events ++ [DlEvent.progressMsgSent]
      let st0 : LoopState := ⟨0, e.tLastUpd0, 0, [], [], events⟩
      let st := e.chunks.enum.foldl (dlStep total_size e.tStart e) st0
      if e.storingEditFails then
        -- the unguarded edit at line 434 raised before the store ran
        ⟨.exceptPair, st.events, st.reports, st.downloaded, st.file_data, db⟩
      else
        let events := st.events ++ [DlEvent.storingEditTried]
        let stored := store_file_mongodb db st.file_data filename
        let events := events ++ [DlEvent.storedToDb]
        if e.deleteFails then
          -- delete_message at line 443 raised after the store ran
          ⟨.exceptPair, events, st.reports, st.downloaded, st.file_data, stored.2⟩
        else
          ⟨.ok stored.1 st.file_data.length, events ++ [DlEvent.progressMsgDeleted],
            st.reports, st.downloaded, st.file_data, stored.2⟩

/-- A concrete environment in which the single progress report is emitted
with zero elapsed time: a 1-byte file whose only chunk arrives at the same
timestamp the transfer started. -/
def zeroSpeedEnv : NetEnv :=
  ⟨200, 1, [[1]], 0, 0, fun _ => 0, false, false, fun _ => false, false, false⟩

/-- Loop invariant for progress reports: the recorded percentages and byte
counters are chains, every recorded counter is bounded by the live counter,
and every recorded percentage is the percentage of its counter. -/
def ReportInv (total : Nat) (st : LoopState) : Prop :=
  List.Chain' (· ≤ ·) (st.reports.map (fun r => r.percent)) ∧
  List.Chain' (· ≤ ·) (st.reports.map (fun r => r.downloaded)) ∧
  ∀ r ∈ st.reports, r.downloaded ≤ st.downloaded ∧
    r.percent = (r.downloaded : ℚ) / (total : ℚ) * 100

/-- Loop invariant for the ETA fields of the recorded reports. -/
def EtaInv (total : Nat) (st : LoopState) : Prop :=
  ∀ r ∈ st.reports, r.etaText = format_time r.eta ∧
    (0 < r.speed → r.eta = ((total : ℚ) - (r.downloaded : ℚ)) / r.speed) ∧
    (r.speed = 0 → r.eta = 0 ∧ r.etaText = "0s")

/-! ## Upload and cleanup (src/main.py lines 463-560, `upload_from_mongodb`)

The Telegram calls are an environment of failure flags.  The MongoDB
deletes themselves are assumed reliable (their driver errors are not
modelled); what matters for the claims is on which paths the cleanup
statements are reached at all. -/

/-- Which Telegram calls inside `upload_from_mongodb` raise. -/
structure UpEnv where
  /-- the initial "Uploading..." `reply_text` raises (line 469). -/
  uploadMsgFails : Bool
  /-- the `send_video`/`send_audio`/`send_photo`/`send_document` call
  raises (lines 488-523). -/
  sendFails : Bool
  /-- `delete_message` on the upload message raises (line 525). -/
  deleteMsgFails : Bool
  /-- the final success `reply_text` raises (line 545). -/
  successReplyFails : Bool

/-- `delete_one({'_id': file_id})` followed by
`delete_many({'files_id': file_id})` (src/main.py lines 531-532). -/
def cleanupDb (db : DbState) (file_id : Nat) : DbState :=
  ⟨db.files.eraseP (fun f => f.fid = file_id),
    db.chunks.filter (fun c => ¬ c.files_id = file_id), db.nextId⟩

/-- Everything observable about one run of `upload_from_mongodb`. -/
structure UpRun where
  /-- the run ended in the `except` branch that replies "Upload failed". -/
  failed : Bool
  /-- how many times the cleanup pair of deletes ran. -/
  cleanupCount : Nat
  /-- the database state when the function returned. -/
  db : DbState
deriving DecidableEq

/-- `upload_from_mongodb` (src/main.py lines 463-560) replayed against an
environment.  Every raise inside the `try` lands in the `except` that logs
and replies "Upload failed". -/
def upload_from_mongodb (db : DbState) (e : UpEnv) (file_id : Nat) : UpRun :=
  if e.uploadMsgFails then ⟨true, 0, db⟩
  else
    match retrieve_file_mongodb db file_id with
    | none => ⟨true, 0, db⟩          -- unpacking None raises
    | some (file_data, _) =>
        if file_data = [] then ⟨true, 0, db⟩  -- `if not file_data: raise`
        else if e.sendFails then ⟨true, 0, db⟩
        else if e.deleteMsgFails then ⟨true, 0, db⟩
        else
          -- clean up from MongoDB after successful upload (lines 531-532)
          let db2 := cleanupDb db file_id
          if e.successReplyFails then ⟨true, 1, db2⟩
          else ⟨false, 1, db2⟩

/-! ## Metadata extraction (src/main.py lines 584-614, inside
`handle_message`)

The parsed JSON body of the unlocking API is modelled structurally: the
`"📜 Extracted Info"` key is an optional list of result objects whose
fields are optional strings.  `Except.error` models the `raise` statements
that the surrounding `except` turns into the user-facing extraction-failure
message; the pipeline issues exactly one API call and never retries by
construction. -/

/-- One object of the `"📜 Extracted Info"` array. -/
structure ApiFileInfo where
  /-- `"🔽 Direct Download Link"` -/
  directLink : Option String
  /-- `"📂 Title"` -/
  title : Option String
  /-- `"📊 Size"` -/
  sizeText : Option String

/-- The unlocking API's observable response. -/
structure ApiResponse where
  status : Nat
  /-- `some l` when the `"📜 Extracted Info"` key is present with value
  `l`; `none` when the key is absent. -/
  extractedInfo : Option (List ApiFileInfo)

/-- A decimal-literal subset of Python `float(...)`: optional sign, digits
with an optional fractional part.  (Inputs outside this subset make the
source's inner `try` return 0 just as a parse here returning `none` does.) -/
def pyFloatOfChars (l : List Char) : Option ℚ :=
  let core : List Char → Option ℚ := fun s =>
    let ip := s.takeWhile Char.isDigit
    let rest := s.drop ip.length
    let ipVal : Nat := ip.foldl (fun a c => a * 10 + (c.toNat - 48)) 0
    match rest with
    | [] => if ip = [] then none else some (ipVal : ℚ)
    | '.' :: fr =>
        if fr.all Char.isDigit ∧ ¬(ip = [] ∧ fr = []) then
          let frVal : Nat := fr.foldl (fun a c => a * 10 + (c.toNat - 48)) 0
          some ((ipVal : ℚ) + (frVal : ℚ) / ((10 : ℚ) ^ fr.length))
        else none
    | _ => none
  match l with
  | '-' :: t => (core t).map Neg.neg
  | '+' :: t => core t
  | t => core t

/-- `file_size_str.split()[0]`: first whitespace-separated token. -/
def firstToken (l : List Char) : List Char :=
  (l.dropWhile Char.isWhitespace).takeWhile (fun c => ¬ c.isWhitespace)

/-- The size-string parsing at src/main.py lines 604-614: scale the first
token by the matching suffix, truncating to an integer; every parse failure
is caught and yields 0. -/
def parseSizeText (s : String) : Nat :=
  let scaled : Nat → Nat := fun m =>
    match pyFloatOfChars (firstToken s.data) with
    | none => 0
    | some q => (pyInt (q * (m : ℚ))).toNat
  if containsChars "MB".data s.data then scaled (1024 * 1024)
  else if containsChars "GB".data s.data then scaled (1024 * 1024 * 1024)
  else if containsChars "KB".data s.data then scaled 1024
  else 0

/-- The metadata extraction of `handle_message` (src/main.py lines
584-614): check the HTTP status, the `"📜 Extracted Info"` envelope and the
direct-download link, returning `(direct_link, file_name, file_size)`.
`now` stands for `int(time.time())` in the fallback file name. -/
def extract_file_info (r : ApiResponse) (now : Nat) :
    Except String (String × String × Nat) :=
  if r.status ≠ 200 then .error "API returned non-200 status"
  else
    match r.extractedInfo with
    | none => .error "No file information found"
    | some [] => .error "No file information found"   -- `not data[key]`
    | some (file_info :: _) =>
        let file_name := file_info.title.getD ("terabox_file_" ++ Nat.repr now)
        let file_size := parseSizeText (file_info.sizeText.getD "Unknown")
        match file_info.directLink with
        | none => .error "Direct download link not found"
        | some l =>
            if l = "" then .error "Direct download link not found"
            else .ok (l, file_name, file_size)

/-! ## Claims -/

/-- C7 counterexample: the code formats 1024 bytes as `"1.0 KB"` (the
Python float `round(1024/1024, 2)` prints as `1.0`), not as the claimed
`"1 KB"`. -/
theorem format_file_size_1024_not_one_KB :
    format_file_size 1024 = some "1.0 KB" ∧
    (some "1.0 KB" : Option String) ≠ some "1 KB" := by
  constructor
  · decide
  · decide

/-- C7 amended: `format_file_size 0 = "0B"` and
`format_file_size 1024 = "1.0 KB"` (base-1024 rollover to the KB suffix,
rendered with one decimal), and the formatter is a pure function of the
byte count, so the same input always yields the same string. -/
theorem format_file_size_spec :
    format_file_size 0 = some "0B" ∧
    format_file_size 1024 = some "1.0 KB" ∧
    ∀ n : Nat, format_file_size n = format_file_size n := by
  exact ⟨by decide, by decide, fun _ => rfl⟩

/-- C1 counterexample: the validator accepts
`https://terabox.com.evil.com/x`, whose parsed host merely contains
`terabox.com` as a substring and is not a member of the allow-list. -/
theorem is_valid_terabox_url_accepts_substring_host :
    is_valid_terabox_url "https://terabox.com.evil.com/x" = true ∧
    netlocOf ("https://terabox.com.evil.com/x").data =
      some ("terabox.com.evil.com").data ∧
    "terabox.com.evil.com" ∉ valid_domains := by
  refine ⟨?_, ?_, ?_⟩
  · decide
  · decide
  · decide

/-- C1 amended: the validator parses the URL structurally and tests the
host, but by substring containment rather than membership: it returns true
iff the parse succeeds (`urlparse` raising lands in the bare `except` and
yields false, e.g. on the unbalanced-bracket host of
`https://[terabox.com/x`) and some allowed domain occurs as a substring of
the lowercased netloc.  Both spec examples hold (`https://terabox.com/s/abc`
accepted, `https://evil.com/terabox.com` rejected because the path is not
part of the host), yet hosts that merely contain an allowed domain are also
accepted. -/
theorem is_valid_terabox_url_spec :
    is_valid_terabox_url "https://terabox.com/s/abc" = true ∧
    is_valid_terabox_url "https://evil.com/terabox.com" = false ∧
    is_valid_terabox_url "https://[terabox.com/x" = false ∧
    ∀ url : String, is_valid_terabox_url url = true ↔
      ∃ host, netlocOf url.data = some host ∧
        ∃ d ∈ valid_domains,
          containsChars d.data (host.map Char.toLower) = true := by
  refine ⟨by decide, by decide, by decide, fun url => ?_⟩
  simp only [is_valid_terabox_url]
  match hn : netlocOf url.data with
  | none => simp [hn]
  | some host => simp [hn, List.any_eq_true]

/-- C9 counterexample: with HTTP status 200, a present and non-empty
`"📜 Extracted Info"` array, and a direct-download-link field that is
present but empty, extraction still fails — a failure case outside the
claim's "field is missing". -/
theorem extract_file_info_fails_on_empty_link :
    extract_file_info ⟨200, some [⟨some "", some "video.mp4", some "10 MB"⟩]⟩ 0 =
      .error "Direct download link not found" ∧
    (some "" : Option String) ≠ none := by
  constructor
  · rfl
  · decide

/-- C9 amended: extraction fails iff the HTTP status is not 200, the
`"📜 Extracted Info"` key is absent or its value empty, or the
direct-download-link field of the first result is missing *or empty*; on
success it returns the link together with the (defaulted) name and parsed
size. -/
theorem extract_file_info_error_iff (r : ApiResponse) (now : Nat) :
    (∃ msg, extract_file_info r now = .error msg) ↔
      r.status ≠ 200 ∨ r.extractedInfo = none ∨ r.extractedInfo = some [] ∨
        ∃ fi rest, r.extractedInfo = some (fi :: rest) ∧
          (fi.directLink = none ∨ fi.directLink = some "") := by
  obtain ⟨st, info⟩ := r
  by_cases hst : st = 200
  · subst hst
    match info with
    | none => simp [extract_file_info]
    | some [] => simp [extract_file_info]
    | some (fi :: rest) =>
        match hdl : fi.directLink with
        | none => simp [extract_file_info, hdl]
        | some l =>
            by_cases hl : l = ""
            · subst hl
              simp [extract_file_info, hdl]
            · simp [extract_file_info, hdl, hl]
  · simp [extract_file_info, hst]

/-! ### C10: store/retrieve round-trip -/

theorem chunksOfAux_join {α : Type} (c : Nat) (hc : 0 < c) :
    ∀ (fuel : Nat) (l : List α), l.length ≤ fuel →
      (chunksOfAux c fuel l).flatten = l := by
  intro fuel
  induction fuel with
  | zero =>
      intro l hl
      have : l = [] := List.eq_nil_of_length_eq_zero (Nat.le_zero.mp hl)
      subst this
      rfl
  | succ fuel ih =>
      intro l hl
      match l with
      | [] => rfl
      | a :: t =>
          have hdrop : ((a :: t).drop c).length ≤ fuel := by
            rw [List.length_drop]
            omega
          simp only [chunksOfAux, List.flatten]
          rw [ih _ hdrop, List.take_append_drop]

theorem chunksOf_join {α : Type} (c : Nat) (hc : 0 < c) (l : List α) :
    (chunksOf c l).flatten = l :=
  chunksOfAux_join c hc l.length l (Nat.le_refl _)

theorem foldl_append_chunkdata (L : List ChunkDoc) (acc : List Nat) :
    L.foldl (fun a c => a ++ c.data) acc = acc ++ (L.map (fun c => c.data)).flatten := by
  induction L generalizing acc with
  | nil => simp
  | cons c t ih => simp [ih, List.append_assoc]

theorem chain'_fst_enumFrom {α : Type} :
    ∀ (k : Nat) (L : List α),
      List.Chain' (fun p q : Nat × α => p.1 ≤ q.1) (List.enumFrom k L) := by
  intro k L
  induction L generalizing k with
  | nil => simp
  | cons a t ih =>
      match t with
      | [] => simp
      | b :: t2 =>
          refine List.Chain'.cons ?_ (ih (k + 1))
          simp [List.enumFrom]

theorem sortByN_of_sorted :
    ∀ (l : List ChunkDoc), List.Chain' (fun a b => a.n ≤ b.n) l → sortByN l = l := by
  intro l hl
  induction l with
  | nil => rfl
  | cons c t ih =>
      have ht : List.Chain' (fun a b => a.n ≤ b.n) t := hl.tail
      rw [sortByN, ih ht]
      match t, hl with
      | [], _ => rfl
      | d :: t2, hl =>
          have hcd : c.n ≤ d.n := List.chain'_cons.mp hl |>.1
          simp [insertByN, hcd]

theorem find?_append_of_none {α : Type} (p : α → Bool) (l₁ l₂ : List α)
    (h : l₁.find? p = none) : (l₁ ++ l₂).find? p = l₂.find? p := by
  induction l₁ with
  | nil => rfl
  | cons a t ih =>
      simp only [List.find?_cons] at h
      simp only [List.cons_append, List.find?_cons]
      match hp : p a with
      | true => simp [hp] at h
      | false =>
          simp only [hp] at h ⊢
          exact ih h

/-- C10: storing a byte sequence and retrieving it by the returned id is a
round-trip — the in-order concatenation of the stored 261120-byte chunk
documents reconstructs the original bytes and filename — provided the
generated id is fresh for the initial database state. -/
theorem store_retrieve_roundtrip (db : DbState) (d : List Nat) (f : String)
    (hfiles : ∀ fd ∈ db.files, fd.fid ≠ db.nextId)
    (hchunks : ∀ cd ∈ db.chunks, cd.files_id ≠ db.nextId) :
    retrieve_file_mongodb (store_file_mongodb db d f).2 (store_file_mongodb db d f).1
      = some (d, f) := by
  unfold store_file_mongodb retrieve_file_mongodb
  simp only
  have hfind1 : db.files.find? (fun fd => fd.fid = db.nextId) = none := by
    rw [List.find?_eq_none]
    intro fd hfd
    simp [hfiles fd hfd]
  rw [find?_append_of_none _ _ _ hfind1]
  have hfind2 :
      List.find? (fun fd => fd.fid = db.nextId)
        [(⟨db.nextId, f, d.length, gridfsChunkSize⟩ : FileDoc)] =
        some ⟨db.nextId, f, d.length, gridfsChunkSize⟩ := by
    simp [List.find?_cons]
  rw [hfind2]
  simp only
  have hfilter1 : db.chunks.filter (fun cd => cd.files_id = db.nextId) = [] := by
    rw [List.filter_eq_nil_iff]
    intro cd hcd
    simp [hchunks cd hcd]
  have hfilter2 :
      ((chunksOf gridfsChunkSize d).enum.map
          (fun p => ChunkDoc.mk db.nextId p.1 p.2)).filter
        (fun cd => cd.files_id = db.nextId) =
      (chunksOf gridfsChunkSize d).enum.map
          (fun p => ChunkDoc.mk db.nextId p.1 p.2) := by
    rw [List.filter_eq_self]
    intro cd hcd
    rcases List.mem_map.mp hcd with ⟨p, _, rfl⟩
    simp
  rw [List.filter_append, hfilter1, hfilter2, List.nil_append]
  have hchain :
      List.Chain' (fun a b => a.n ≤ b.n)
        ((chunksOf gridfsChunkSize d).enum.map
          (fun p => ChunkDoc.mk db.nextId p.1 p.2)) := by
    rw [List.chain'_map]
    exact chain'_fst_enumFrom 0 _
  rw [sortByN_of_sorted _ hchain, foldl_append_chunkdata, List.nil_append]
  have hmaps :
      ((chunksOf gridfsChunkSize d).enum.map
          (fun p => ChunkDoc.mk db.nextId p.1 p.2)).map (fun c => c.data) =
        chunksOf gridfsChunkSize d := by
    rw [List.map_map]
    have : ((fun c : ChunkDoc => c.data) ∘ fun p : Nat × List Nat =>
        ChunkDoc.mk db.nextId p.1 p.2) = Prod.snd := rfl
    rw [this, List.enum_map_snd]
  rw [hmaps, chunksOf_join gridfsChunkSize (by decide) d]

/-- C10 witness: a concrete store-then-retrieve round-trip on the empty
database. -/
theorem store_retrieve_roundtrip_witness :
    retrieve_file_mongodb (store_file_mongodb ⟨[], [], 0⟩ [7, 8, 9] "a.bin").2
      (store_file_mongodb ⟨[], [], 0⟩ [7, 8, 9] "a.bin").1 = some ([7, 8, 9], "a.bin") :=
  store_retrieve_roundtrip ⟨[], [], 0⟩ [7, 8, 9] "a.bin" (by decide) (by decide)

/-! ### Loop bookkeeping lemmas for `download_to_mongodb` -/

/-- One loop iteration always appends exactly the delivered chunk to the
buffer and adds its length to the counter, whichever progress branch is
taken. -/
theorem dlStep_data (total_size : Nat) (start_time : ℚ) (e : NetEnv)
    (st : LoopState) (p : Nat × List Nat) :
    (dlStep total_size start_time e st p).file_data = st.file_data ++ p.2 ∧
    (dlStep total_size start_time e st p).downloaded = st.downloaded + p.2.length := by
  simp only [dlStep]
  split
  · split
    · split
      · exact ⟨rfl, rfl⟩
      · exact ⟨rfl, rfl⟩
    · exact ⟨rfl, rfl⟩
  · exact ⟨rfl, rfl⟩

/-- Folding the loop over any chunk sequence accumulates exactly the
concatenation of the chunks and the sum of their lengths. -/
theorem foldl_dlStep_data (total_size : Nat) (start_time : ℚ) (e : NetEnv) :
    ∀ (L : List (Nat × List Nat)) (st : LoopState),
      (L.foldl (dlStep total_size start_time e) st).file_data =
        st.file_data ++ (L.map Prod.snd).flatten ∧
      (L.foldl (dlStep total_size start_time e) st).downloaded =
        st.downloaded + (L.map (fun p => p.2.length)).sum := by
  intro L
  induction L with
  | nil => intro st; simp
  | cons p t ih =>
      intro st
      rcases dlStep_data total_size start_time e st p with ⟨hd, hc⟩
      rcases ih (dlStep total_size start_time e st p) with ⟨ihd, ihc⟩
      constructor
      · rw [List.foldl_cons, ihd, hd]
        simp [List.append_assoc]
      · rw [List.foldl_cons, ihc, hc]
        simp only [List.map_cons, List.sum_cons]
        omega

/-- The per-iteration chunk lengths seen by the fold are the chunk lengths
themselves. -/
theorem enum_snd_lengths (chunks : List (List Nat)) :
    (chunks.enum.map Prod.snd) = chunks :=
  List.enum_map_snd chunks

/-! ### C2: the 2 GiB size guard -/

/-- C2 counterexample: with a known total size above the 2 GiB ceiling the
relay still issues the streaming GET — the `Content-Length` header it
guards on is only available after `session.get(url)` — so "without issuing
the streaming GET" is false, even though no body chunk is read. -/
theorem download_too_large_still_issues_get :
    MAX_FILE_SIZE <
      (NetEnv.mk 200 (MAX_FILE_SIZE + 1) [] 0 0 (fun _ => 0) false false
        (fun _ => false) false false).contentLength ∧
    DlEvent.getIssued ∈
      (download_to_mongodb ⟨[], [], 0⟩
        (NetEnv.mk 200 (MAX_FILE_SIZE + 1) [] 0 0 (fun _ => 0) false false
          (fun _ => false) false false) "f").events := by
  constructor
  · decide
  · decide

/-- C2 amended: when the known total size exceeds the 2 GiB maximum the
relay rejects after reading the response headers but before reading any
chunk of the body: the result is the too-large exit (or the `(None, 0)`
exit when even the rejection reply fails), no `chunkRead` event occurs, no
progress is reported and nothing is stored. -/
theorem download_too_large_no_partial_download (db : DbState) (e : NetEnv)
    (f : String) (h200 : e.status = 200)
    (hbig : MAX_FILE_SIZE < e.contentLength) :
    ((download_to_mongodb db e f).result = DlResult.noneOnly ∨
      (download_to_mongodb db e f).result = DlResult.exceptPair) ∧
    (∀ i len, DlEvent.chunkRead i len ∉ (download_to_mongodb db e f).events) ∧
    (download_to_mongodb db e f).reports = [] ∧
    (download_to_mongodb db e f).bytes_transferred = 0 ∧
    (download_to_mongodb db e f).db = db := by
  unfold download_to_mongodb
  rw [if_neg (by simp [h200]), if_pos hbig]
  by_cases htl : e.tooLargeReplyFails
  · rw [if_pos htl]
    refine ⟨Or.inr rfl, ?_, rfl, rfl, rfl⟩
    intro i len
    simp
  · rw [if_neg htl]
    refine ⟨Or.inl rfl, ?_, rfl, rfl, rfl⟩
    intro i len
    simp

/-- C2 witness: the guard theorem applied to a concrete 2 GiB + 1 response. -/
theorem download_too_large_no_partial_download_witness :
    ((download_to_mongodb ⟨[], [], 0⟩
        (NetEnv.mk 200 (MAX_FILE_SIZE + 1) [[1, 2]] 0 0 (fun _ => 0) false false
          (fun _ => false) false false) "f").result = DlResult.noneOnly ∨
      (download_to_mongodb ⟨[], [], 0⟩
        (NetEnv.mk 200 (MAX_FILE_SIZE + 1) [[1, 2]] 0 0 (fun _ => 0) false false
          (fun _ => false) false false) "f").result = DlResult.exceptPair) ∧
    (∀ i len, DlEvent.chunkRead i len ∉
      (download_to_mongodb ⟨[], [], 0⟩
        (NetEnv.mk 200 (MAX_FILE_SIZE + 1) [[1, 2]] 0 0 (fun _ => 0) false false
          (fun _ => false) false false) "f").events) ∧
    (download_to_mongodb ⟨[], [], 0⟩
        (NetEnv.mk 200 (MAX_FILE_SIZE + 1) [[1, 2]] 0 0 (fun _ => 0) false false
          (fun _ => false) false false) "f").reports = [] ∧
    (download_to_mongodb ⟨[], [], 0⟩
        (NetEnv.mk 200 (MAX_FILE_SIZE + 1) [[1, 2]] 0 0 (fun _ => 0) false false
          (fun _ => false) false false) "f").bytes_transferred = 0 ∧
    (download_to_mongodb ⟨[], [], 0⟩
        (NetEnv.mk 200 (MAX_FILE_SIZE + 1) [[1, 2]] 0 0 (fun _ => 0) false false
          (fun _ => false) false false) "f").db = ⟨[], [], 0⟩ :=
  download_too_large_no_partial_download ⟨[], [], 0⟩ _ "f" rfl (by decide)

/-! ### Shared completion lemma for the happy download path -/

/-- If the GET succeeds, the size guard passes and none of the unguarded
message calls fail, the loop runs over all chunks and the bytes are stored:
the buffer is the chunk concatenation, the counter is the length sum, and
the function returns the fresh file id with the buffer length. -/
theorem download_completes (db : DbState) (e : NetEnv) (f : String)
    (h200 : e.status = 200) (hsize : e.contentLength ≤ MAX_FILE_SIZE)
    (hpr : e.progressReplyFails = false) (hse : e.storingEditFails = false)
    (hdel : e.deleteFails = false) :
    (download_to_mongodb db e f).result =
      DlResult.ok db.nextId e.chunks.flatten.length ∧
    (download_to_mongodb db e f).file_data = e.chunks.flatten ∧
    (download_to_mongodb db e f).bytes_transferred =
      (e.chunks.map List.length).sum ∧
    (download_to_mongodb db e f).db =
      (store_file_mongodb db e.chunks.flatten f).2 := by
  unfold download_to_mongodb
  rw [if_neg (by simp [h200]), if_neg (by omega), if_neg (by simp [hpr]),
    if_neg (by simp [hse]), if_neg (by simp [hdel])]
  rcases foldl_dlStep_data e.contentLength e.tStart e e.chunks.enum
      ⟨0, e.tLastUpd0, 0, [], [], [DlEvent.getIssued, DlEvent.progressMsgSent]⟩
    with ⟨hdata, hcount⟩
  rw [enum_snd_lengths] at hdata
  have hlen : (e.chunks.enum.map (fun p => p.2.length)).sum =
      (e.chunks.map List.length).sum := by
    have : (e.chunks.enum.map (fun p => p.2.length)) =
        (e.chunks.enum.map Prod.snd).map List.length := by
      rw [List.map_map]
      rfl
    rw [this, enum_snd_lengths]
  simp only at hdata hcount
  rw [hlen] at hcount
  simp only [List.nil_append] at hdata hcount
  refine ⟨?_, ?_, ?_, ?_⟩
  · simp [hdata, store_file_mongodb]
  · simpa using hdata
  · simpa using hcount
  · simp [hdata, store_file_mongodb]

/-! ### C3: no byte lost or duplicated across the chunk loop -/

/-- C3: for every chunk sequence delivering `T` bytes in total, after the
loop the buffer length, the `downloaded` counter and the size returned by
`download_to_mongodb` all equal `T`. -/
theorem download_preserves_byte_count (db : DbState) (e : NetEnv) (f : String)
    (h200 : e.status = 200) (hsize : e.contentLength ≤ MAX_FILE_SIZE)
    (hpr : e.progressReplyFails = false) (hse : e.storingEditFails = false)
    (hdel : e.deleteFails = false) :
    (download_to_mongodb db e f).file_data.length =
      (e.chunks.map List.length).sum ∧
    (download_to_mongodb db e f).bytes_transferred =
      (e.chunks.map List.length).sum ∧
    (download_to_mongodb db e f).result =
      DlResult.ok db.nextId ((e.chunks.map List.length).sum) := by
  rcases download_completes db e f h200 hsize hpr hse hdel with ⟨hr, hd, hc, _⟩
  have hT : e.chunks.flatten.length = (e.chunks.map List.length).sum :=
    List.length_flatten e.chunks
  refine ⟨?_, hc, ?_⟩
  · rw [hd, hT]
  · rw [hr, hT]

/-- C3 witness: three chunks of sizes 2, 0 and 3 yield exactly 5 bytes in
the buffer, the counter and the returned size. -/
theorem download_preserves_byte_count_witness :
    (download_to_mongodb ⟨[], [], 0⟩
        (NetEnv.mk 200 0 [[1, 2], [], [3, 4, 5]] 0 0 (fun _ => 0) false false
          (fun _ => false) false false) "f").file_data.length = 5 ∧
    (download_to_mongodb ⟨[], [], 0⟩
        (NetEnv.mk 200 0 [[1, 2], [], [3, 4, 5]] 0 0 (fun _ => 0) false false
          (fun _ => false) false false) "f").bytes_transferred = 5 ∧
    (download_to_mongodb ⟨[], [], 0⟩
        (NetEnv.mk 200 0 [[1, 2], [], [3, 4, 5]] 0 0 (fun _ => 0) false false
          (fun _ => false) false false) "f").result = DlResult.ok 0 5 :=
  download_preserves_byte_count ⟨[], [], 0⟩ _ "f" rfl (by decide) rfl rfl rfl

/-! ### C4: which message failures abort the transfer -/

/-- C4 counterexample: the "Storing in cloud database..." status edit at
line 434 is *not* inside the loop's try/except; when it fails after a
successful chunk loop, the whole function lands in the outer `except` and
returns `(None, 0)` — the downloaded bytes are neither stored nor
returned. -/
theorem storing_edit_failure_aborts_transfer :
    (NetEnv.mk 200 3 [[1, 2, 3]] 0 0 (fun _ => 0) false false
        (fun _ => false) true false).storingEditFails = true ∧
    (download_to_mongodb ⟨[], [], 0⟩
        (NetEnv.mk 200 3 [[1, 2, 3]] 0 0 (fun _ => 0) false false
          (fun _ => false) true false) "f").result = DlResult.exceptPair ∧
    (download_to_mongodb ⟨[], [], 0⟩
        (NetEnv.mk 200 3 [[1, 2, 3]] 0 0 (fun _ => 0) false false
          (fun _ => false) true false) "f").db = ⟨[], [], 0⟩ := by
  refine ⟨rfl, ?_, ?_⟩
  · decide
  · decide

/-- C4 amended: failures of the *in-loop* progress edit (the only message
call wrapped in its own try/except) never abort the transfer: whatever
subset of progress edits fails, the chunk loop and the storage step still
run to completion and the downloaded bytes are stored and returned.
Failures of the unguarded pre-loop reply, post-loop status edit or message
delete do abort (see the counterexample). -/
theorem progress_edit_failures_ignored (db : DbState) (e : NetEnv) (f : String)
    (g : Nat → Bool)
    (h200 : e.status = 200) (hsize : e.contentLength ≤ MAX_FILE_SIZE)
    (hpr : e.progressReplyFails = false) (hse : e.storingEditFails = false)
    (hdel : e.deleteFails = false) :
    (download_to_mongodb db { e with editFailsAt := g } f).result =
      DlResult.ok db.nextId e.chunks.flatten.length ∧
    (download_to_mongodb db { e with editFailsAt := g } f).db =
      (store_file_mongodb db e.chunks.flatten f).2 := by
  rcases download_completes db { e with editFailsAt := g } f h200 hsize hpr hse hdel
    with ⟨h1, _, _, h4⟩
  exact ⟨h1, h4⟩

/-- C4 witness: every in-loop progress edit failing still yields a stored,
returned 1-byte transfer. -/
theorem progress_edit_failures_ignored_witness :
    (download_to_mongodb ⟨[], [], 0⟩
        { NetEnv.mk 200 0 [[9]] 0 0 (fun _ => 0) false false
            (fun _ => false) false false with editFailsAt := fun _ => true } "f").result =
      DlResult.ok 0 1 ∧
    (download_to_mongodb ⟨[], [], 0⟩
        { NetEnv.mk 200 0 [[9]] 0 0 (fun _ => 0) false false
            (fun _ => false) false false with editFailsAt := fun _ => true } "f").db =
      (store_file_mongodb ⟨[], [], 0⟩ [9] "f").2 :=
  progress_edit_failures_ignored ⟨[], [], 0⟩ _ "f" (fun _ => true) rfl (by decide)
    rfl rfl rfl

/-! ### C5: monotone progress -/

/-- Append one element to a chain whose last element relates to it. -/
theorem chain'_snoc {α : Type} {R : α → α → Prop} {l : List α} {a : α}
    (hl : List.Chain' R l) (h : ∀ x ∈ l.getLast?, R x a) :
    List.Chain' R (l ++ [a]) := by
  rw [List.chain'_append]
  refine ⟨hl, List.chain'_singleton a, fun x hx y hy => ?_⟩
  simp only [List.head?_cons, Option.mem_def, Option.some.injEq] at hy
  subst hy
  exact h x hx

/-- Percentages `d / total * 100` are monotone in `d` (also when
`total = 0`, where both sides are 0). -/
theorem percent_mono (total : Nat) {a b : Nat} (h : a ≤ b) :
    (a : ℚ) / (total : ℚ) * 100 ≤ (b : ℚ) / (total : ℚ) * 100 := by
  have ha : (a : ℚ) ≤ (b : ℚ) := by exact_mod_cast h
  have ht : (0 : ℚ) ≤ ((total : ℚ))⁻¹ := by positivity
  rw [div_eq_mul_inv, div_eq_mul_inv]
  exact mul_le_mul_of_nonneg_right
    (mul_le_mul_of_nonneg_right ha ht) (by norm_num)

theorem dlStep_reportInv (total : Nat) (ts : ℚ) (e : NetEnv)
    (st : LoopState) (p : Nat × List Nat) (h : ReportInv total st) :
    ReportInv total (dlStep total ts e st p) := by
  obtain ⟨h1, h2, h3⟩ := h
  have hle : st.downloaded ≤ st.downloaded + p.2.length := Nat.le_add_right _ _
  simp only [dlStep, ReportInv]
  split
  · split
    · split
      all_goals
        refine ⟨?_, ?_, fun r hr => ?_⟩
        · simp only [List.map_append, List.map_cons, List.map_nil]
          refine chain'_snoc h1 (fun x hx => ?_)
          rcases List.mem_map.mp (List.mem_of_mem_getLast? hx) with ⟨r, hr, rfl⟩
          rcases h3 r hr with ⟨hrd, hrp⟩
          rw [hrp]
          exact percent_mono total (le_trans hrd hle)
        · simp only [List.map_append, List.map_cons, List.map_nil]
          refine chain'_snoc h2 (fun x hx => ?_)
          rcases List.mem_map.mp (List.mem_of_mem_getLast? hx) with ⟨r, hr, rfl⟩
          exact le_trans (h3 r hr).1 hle
        · rcases List.mem_append.mp hr with hold | hnew
          · exact ⟨le_trans (h3 r hold).1 hle, (h3 r hold).2⟩
          · rcases List.mem_singleton.mp hnew with rfl
            exact ⟨le_refl _, rfl⟩
    · exact ⟨h1, h2, fun r hr => ⟨le_trans (h3 r hr).1 hle, (h3 r hr).2⟩⟩
  · exact ⟨h1, h2, fun r hr => ⟨le_trans (h3 r hr).1 hle, (h3 r hr).2⟩⟩

theorem foldl_reportInv (total : Nat) (ts : ℚ) (e : NetEnv) :
    ∀ (L : List (Nat × List Nat)) (st : LoopState), ReportInv total st →
      ReportInv total (L.foldl (dlStep total ts e) st) := by
  intro L
  induction L with
  | nil => intro st h; exact h
  | cons p t ih =>
      intro st h
      exact ih _ (dlStep_reportInv total ts e st p h)

/-- With an unknown total (`content-length` 0) an iteration never touches
the report list. -/
theorem dlStep_reports_of_zero (ts : ℚ) (e : NetEnv) (st : LoopState)
    (p : Nat × List Nat) : (dlStep 0 ts e st p).reports = st.reports := by
  simp [dlStep]

theorem foldl_reports_of_zero (ts : ℚ) (e : NetEnv) :
    ∀ (L : List (Nat × List Nat)) (st : LoopState),
      (L.foldl (dlStep 0 ts e) st).reports = st.reports := by
  intro L
  induction L with
  | nil => intro st; rfl
  | cons p t ih =>
      intro st
      rw [List.foldl_cons, ih, dlStep_reports_of_zero]

/-- The run's report list is either empty (an exit before the loop) or the
loop state's report list. -/
theorem run_reports_eq (db : DbState) (e : NetEnv) (f : String) :
    (download_to_mongodb db e f).reports = [] ∨
    (download_to_mongodb db e f).reports =
      (e.chunks.enum.foldl (dlStep e.contentLength e.tStart e)
        ⟨0, e.tLastUpd0, 0, [], [], [DlEvent.getIssued, DlEvent.progressMsgSent]⟩).reports := by
  simp only [download_to_mongodb]
  split
  · exact Or.inl rfl
  · split
    · split
      · exact Or.inl rfl
      · exact Or.inl rfl
    · split
      · exact Or.inl rfl
      · split
        · exact Or.inr rfl
        · split
          · exact Or.inr rfl
          · exact Or.inr rfl

/-- C5: the `downloaded` counter is non-decreasing across loop iterations
(any prefix of the chunk sequence yields at most the full count), so the
byte counters and the percentages carried by successive progress reports
are monotonically non-decreasing; when the total size is unknown
(content-length 0) no percent report is ever produced. -/
theorem progress_reports_monotone (db : DbState) (e : NetEnv) (f : String) :
    List.Chain' (· ≤ ·)
      ((download_to_mongodb db e f).reports.map (fun r => r.percent)) ∧
    List.Chain' (· ≤ ·)
      ((download_to_mongodb db e f).reports.map (fun r => r.downloaded)) ∧
    (e.contentLength = 0 → (download_to_mongodb db e f).reports = []) ∧
    (∀ L1 L2 : List (Nat × List Nat), e.chunks.enum = L1 ++ L2 →
      (L1.foldl (dlStep e.contentLength e.tStart e)
        ⟨0, e.tLastUpd0, 0, [], [], [DlEvent.getIssued, DlEvent.progressMsgSent]⟩).downloaded ≤
      (e.chunks.enum.foldl (dlStep e.contentLength e.tStart e)
        ⟨0, e.tLastUpd0, 0, [], [], [DlEvent.getIssued, DlEvent.progressMsgSent]⟩).downloaded) := by
  have hmono : ∀ L1 L2 : List (Nat × List Nat), e.chunks.enum = L1 ++ L2 →
      (L1.foldl (dlStep e.contentLength e.tStart e)
        ⟨0, e.tLastUpd0, 0, [], [], [DlEvent.getIssued, DlEvent.progressMsgSent]⟩).downloaded ≤
      (e.chunks.enum.foldl (dlStep e.contentLength e.tStart e)
        ⟨0, e.tLastUpd0, 0, [], [], [DlEvent.getIssued, DlEvent.progressMsgSent]⟩).downloaded := by
    intro L1 L2 hsplit
    rw [hsplit, List.foldl_append]
    rcases foldl_dlStep_data e.contentLength e.tStart e L2
        (L1.foldl (dlStep e.contentLength e.tStart e)
          ⟨0, e.tLastUpd0, 0, [], [], [DlEvent.getIssued, DlEvent.progressMsgSent]⟩)
      with ⟨_, hc⟩
    rw [hc]
    exact Nat.le_add_right _ _
  have hinv : ReportInv e.contentLength
      (e.chunks.enum.foldl (dlStep e.contentLength e.tStart e)
        ⟨0, e.tLastUpd0, 0, [], [], [DlEvent.getIssued, DlEvent.progressMsgSent]⟩) :=
    foldl_reportInv e.contentLength e.tStart e e.chunks.enum _
      ⟨List.chain'_nil, List.chain'_nil, by intro r hr; cases hr⟩
  rcases run_reports_eq db e f with hnil | heq
  · rw [hnil]
    exact ⟨List.chain'_nil, List.chain'_nil, fun _ => rfl, hmono⟩
  · rw [heq]
    refine ⟨hinv.1, hinv.2.1, fun hcl => ?_, hmono⟩
    rw [hcl] at *
    exact foldl_reports_of_zero e.tStart e e.chunks.enum _

/-- C5 witness: a report-free run with unknown total, instantiating the
monotonicity theorem. -/
theorem progress_reports_monotone_witness :
    (download_to_mongodb ⟨[], [], 0⟩
      (NetEnv.mk 200 0 [[1, 2], [3]] 0 0 (fun _ => 0) false false
        (fun _ => false) false false) "f").reports = [] :=
  (progress_reports_monotone ⟨[], [], 0⟩
    (NetEnv.mk 200 0 [[1, 2], [3]] 0 0 (fun _ => 0) false false
      (fun _ => false) false false) "f").2.2.1 rfl

/-! ### C6: cleanup of the staged blob -/

/-- C6 counterexample: when the Telegram send fails, `upload_from_mongodb`
jumps to its `except` without ever reaching the cleanup deletes: the run
fails, the cleanup count is 0 and the staged file and chunk documents are
still in the database. -/
theorem upload_failure_skips_cleanup :
    (upload_from_mongodb (store_file_mongodb ⟨[], [], 0⟩ [1] "f").2
        (UpEnv.mk false true false false) 0).failed = true ∧
    (upload_from_mongodb (store_file_mongodb ⟨[], [], 0⟩ [1] "f").2
        (UpEnv.mk false true false false) 0).cleanupCount = 0 ∧
    (upload_from_mongodb (store_file_mongodb ⟨[], [], 0⟩ [1] "f").2
        (UpEnv.mk false true false false) 0).db =
      (store_file_mongodb ⟨[], [], 0⟩ [1] "f").2 ∧
    (store_file_mongodb ⟨[], [], 0⟩ [1] "f").2.files ≠ [] := by
  refine ⟨?_, ?_, ?_, ?_⟩
  · decide
  · decide
  · decide
  · decide

/-- C6 amended: the cleanup deletes run exactly once on the path where the
upload message, the retrieval (non-empty bytes), the send and the message
delete all succeed, and zero times otherwise; in particular on the
send-failure path nothing is cleaned up and the staged blob remains. -/
theorem upload_cleanup_exactly_on_success (db : DbState) (e : UpEnv) (fid : Nat) :
    ((upload_from_mongodb db e fid).cleanupCount = 1 ∨
      (upload_from_mongodb db e fid).cleanupCount = 0) ∧
    ((upload_from_mongodb db e fid).cleanupCount = 1 ↔
      e.uploadMsgFails = false ∧ e.sendFails = false ∧ e.deleteMsgFails = false ∧
        ∃ d fn, retrieve_file_mongodb db fid = some (d, fn) ∧ d ≠ []) ∧
    (e.sendFails = true → (upload_from_mongodb db e fid).cleanupCount = 0 ∧
      (upload_from_mongodb db e fid).db = db) ∧
    ((upload_from_mongodb db e fid).cleanupCount = 1 →
      (upload_from_mongodb db e fid).db = cleanupDb db fid) := by
  cases h1 : e.uploadMsgFails with
  | true =>
      have hrun : upload_from_mongodb db e fid = ⟨true, 0, db⟩ := by
        simp [upload_from_mongodb, h1]
      rw [hrun]
      exact ⟨Or.inr rfl, iff_of_false (by simp) (by simp), fun _ => ⟨rfl, rfl⟩,
        fun h => absurd h (by simp)⟩
  | false =>
      match hre : retrieve_file_mongodb db fid with
      | none =>
          have hrun : upload_from_mongodb db e fid = ⟨true, 0, db⟩ := by
            simp [upload_from_mongodb, h1, hre]
          rw [hrun]
          exact ⟨Or.inr rfl, iff_of_false (by simp) (by simp), fun _ => ⟨rfl, rfl⟩,
            fun h => absurd h (by simp)⟩
      | some (d, fn) =>
          by_cases hd : d = []
          · subst hd
            have hrun : upload_from_mongodb db e fid = ⟨true, 0, db⟩ := by
              simp [upload_from_mongodb, h1, hre]
            rw [hrun]
            exact ⟨Or.inr rfl, iff_of_false (by simp) (by simp),
              fun _ => ⟨rfl, rfl⟩, fun h => absurd h (by simp)⟩
          · cases h2 : e.sendFails with
            | true =>
                have hrun : upload_from_mongodb db e fid = ⟨true, 0, db⟩ := by
                  simp [upload_from_mongodb, h1, hre, hd, h2]
                rw [hrun]
                exact ⟨Or.inr rfl, iff_of_false (by simp) (by simp),
                  fun _ => ⟨rfl, rfl⟩, fun h => absurd h (by simp)⟩
            | false =>
                cases h3 : e.deleteMsgFails with
                | true =>
                    have hrun : upload_from_mongodb db e fid = ⟨true, 0, db⟩ := by
                      simp [upload_from_mongodb, h1, hre, hd, h2, h3]
                    rw [hrun]
                    exact ⟨Or.inr rfl, iff_of_false (by simp) (by simp),
                      fun h => Bool.noConfusion h, fun h => absurd h (by simp)⟩
                | false =>
                    have hrun : upload_from_mongodb db e fid =
                        ⟨e.successReplyFails, 1, cleanupDb db fid⟩ := by
                      cases h4 : e.successReplyFails with
                      | true => simp [upload_from_mongodb, h1, hre, hd, h2, h3, h4]
                      | false => simp [upload_from_mongodb, h1, hre, hd, h2, h3, h4]
                    rw [hrun]
                    exact ⟨Or.inl rfl,
                      iff_of_true rfl ⟨rfl, rfl, rfl, d, fn, rfl, hd⟩,
                      fun h => Bool.noConfusion h, fun _ => rfl⟩

/-- C6 witness: on a concrete database holding one staged blob, a fully
successful upload cleans up exactly once and leaves the cleaned state. -/
theorem upload_cleanup_exactly_on_success_witness :
    ((upload_from_mongodb (store_file_mongodb ⟨[], [], 0⟩ [1] "f").2
        (UpEnv.mk false false false false) 0).cleanupCount = 1 ∨
      (upload_from_mongodb (store_file_mongodb ⟨[], [], 0⟩ [1] "f").2
        (UpEnv.mk false false false false) 0).cleanupCount = 0) ∧
    (upload_from_mongodb (store_file_mongodb ⟨[], [], 0⟩ [1] "f").2
        (UpEnv.mk false false false false) 0).cleanupCount = 1 := by
  have h := upload_cleanup_exactly_on_success
    (store_file_mongodb ⟨[], [], 0⟩ [1] "f").2 (UpEnv.mk false false false false) 0
  exact ⟨h.1, h.2.1.mpr ⟨rfl, rfl, rfl, [1], "f", by decide, by decide⟩⟩

/-! ### C8: ETA semantics -/

theorem format_time_zero : format_time 0 = "0s" := by decide

theorem dlStep_etaInv (total : Nat) (ts : ℚ) (e : NetEnv)
    (st : LoopState) (p : Nat × List Nat) (h : EtaInv total st) :
    EtaInv total (dlStep total ts e st p) := by
  simp only [dlStep, EtaInv]
  split
  · split
    · split
      all_goals
        intro r hr
        rcases List.mem_append.mp hr with hold | hnew
        · exact h r hold
        · rcases List.mem_singleton.mp hnew with rfl
          refine ⟨rfl, fun hs => if_pos hs, fun hs => ?_⟩
          have hns : ¬ ((0 : ℚ) <
              (if 0 < e.tAt p.1 - ts then
                ((st.downloaded + p.2.length : Nat) : ℚ) / (e.tAt p.1 - ts)
              else 0)) := by
            rw [show (if 0 < e.tAt p.1 - ts then
                ((st.downloaded + p.2.length : Nat) : ℚ) / (e.tAt p.1 - ts)
              else 0) = 0 from hs]
            exact lt_irrefl 0
          have heta0 : (if (0 : ℚ) <
              (if 0 < e.tAt p.1 - ts then
                ((st.downloaded + p.2.length : Nat) : ℚ) / (e.tAt p.1 - ts)
              else 0) then
                ((total : ℚ) - ((st.downloaded + p.2.length : Nat) : ℚ)) /
                  (if 0 < e.tAt p.1 - ts then
                    ((st.downloaded + p.2.length : Nat) : ℚ) / (e.tAt p.1 - ts)
                  else 0)
              else 0) = 0 := if_neg hns
          refine ⟨heta0, ?_⟩
          calc (format_time (if (0 : ℚ) <
              (if 0 < e.tAt p.1 - ts then
                ((st.downloaded + p.2.length : Nat) : ℚ) / (e.tAt p.1 - ts)
              else 0) then
                ((total : ℚ) - ((st.downloaded + p.2.length : Nat) : ℚ)) /
                  (if 0 < e.tAt p.1 - ts then
                    ((st.downloaded + p.2.length : Nat) : ℚ) / (e.tAt p.1 - ts)
                  else 0)
              else 0)) = format_time 0 := by rw [heta0]
            _ = "0s" := format_time_zero
    · exact fun r hr => h r hr
  · exact fun r hr => h r hr

theorem foldl_etaInv (total : Nat) (ts : ℚ) (e : NetEnv) :
    ∀ (L : List (Nat × List Nat)) (st : LoopState), EtaInv total st →
      EtaInv total (L.foldl (dlStep total ts e) st) := by
  intro L
  induction L with
  | nil => intro st h; exact h
  | cons p t ih =>
      intro st h
      exact ih _ (dlStep_etaInv total ts e st p h)

/-- C8 amended: every progress report renders its ETA with `format_time`,
the ETA equals `remaining_bytes / speed` whenever the speed is positive,
and when the speed is zero (no time elapsed) the code sets the ETA to 0 and
displays `"0s"` — never `"unknown"`. -/
theorem report_eta_spec (db : DbState) (e : NetEnv) (f : String) :
    ∀ r ∈ (download_to_mongodb db e f).reports,
      r.etaText = format_time r.eta ∧
      (0 < r.speed →
        r.eta = ((e.contentLength : ℚ) - (r.downloaded : ℚ)) / r.speed) ∧
      (r.speed = 0 → r.eta = 0 ∧ r.etaText = "0s") := by
  rcases run_reports_eq db e f with hnil | heq
  · rw [hnil]
    intro r hr
    cases hr
  · rw [heq]
    exact foldl_etaInv e.contentLength e.tStart e e.chunks.enum _
      (fun r hr => by cases hr)

/-- Evaluation of the download relay on `zeroSpeedEnv`: one report, with
speed 0 and ETA text `"0s"`. -/
theorem zeroSpeedEnv_reports :
    (download_to_mongodb ⟨[], [], 0⟩ zeroSpeedEnv "f").reports =
      [⟨1, 100, 0, 0, "0s", true⟩] := by
  simp only [download_to_mongodb, zeroSpeedEnv]
  norm_num [dlStep, List.enum, List.enumFrom, format_time_zero, MAX_FILE_SIZE]

/-- C8 counterexample: in a run whose progress report is computed with zero
speed (no time elapsed), the displayed ETA is `"0s"`, not the claimed
`"unknown"`. -/
theorem eta_zero_speed_shows_zero_seconds :
    (download_to_mongodb ⟨[], [], 0⟩ zeroSpeedEnv "f").reports.map
        (fun r => (r.speed, r.etaText)) = [((0 : ℚ), "0s")] ∧
    "0s" ≠ "unknown" := by
  rw [zeroSpeedEnv_reports]
  exact ⟨rfl, by decide⟩

/-- C8 witness: the ETA theorem applied to the concrete zero-speed report. -/
theorem report_eta_spec_witness :
    (Report.mk 1 100 0 0 "0s" true).etaText =
      format_time (Report.mk 1 100 0 0 "0s" true).eta ∧
    (0 < (Report.mk 1 100 0 0 "0s" true).speed →
      (Report.mk 1 100 0 0 "0s" true).eta =
        ((zeroSpeedEnv.contentLength : ℚ) -
          ((Report.mk 1 100 0 0 "0s" true).downloaded : ℚ)) /
          (Report.mk 1 100 0 0 "0s" true).speed) ∧
    ((Report.mk 1 100 0 0 "0s" true).speed = 0 →
      (Report.mk 1 100 0 0 "0s" true).eta = 0 ∧
      (Report.mk 1 100 0 0 "0s" true).etaText = "0s") :=
  report_eta_spec ⟨[], [], 0⟩ zeroSpeedEnv "f" (Report.mk 1 100 0 0 "0s" true)
    (by rw [zeroSpeedEnv_reports]; exact List.mem_singleton_self _)

end Terany
